import Mathlib

/-!
Verification of the Live Order Change-Detection & Notification Engine of the
quick-admin dashboard.

The repository ships two variants of the `OrderManagement` component.  Both are
embedded here, with definitions named after the source symbols:

* the `fetchOrders` variant (per-identifier highlight timers, bootstrap
  detected by the explicit `loading` flag, `updateDeliveryStatus` /
  `updatePaymentStatus` admin actions that emit no notification);
* the `loadOrders` variant (whole-set highlight timer, bootstrap detected by
  emptiness of `previousOrdersRef`, `handleStatusUpdate` /
  `handlePaymentStatusUpdate` admin actions that emit one notification).

React `useState` / `useRef` cells become explicit state records; a poll cycle
becomes a step function on that state; the fallible `getDocs` fetch becomes an
`Option (List Order)` argument (`none` = the catch branch); `setTimeout`
becomes a pending-timer queue drained in timestamp order.
-/

/-- `Order` record from the repository's `types.ts`, restricted to the fields
the notification engine reads.  Monetary amounts and timestamps are modelled
as naturals. -/
structure Order where
  id : String
  orderNumber : String
  customerName : String
  totalAmount : Nat
  status : String
  paymentStatus : String
  storeId : String
  createdAt : Nat
deriving DecidableEq, Repr

/-- The `type` tag of a persisted notification record. -/
inductive NotificationType where
  | new_order
  | status_update
  | payment_update
deriving DecidableEq, Repr

/-- `Notification` record from `types.ts` as written by `saveNotification`
(`read` is initially `false`; the document id assigned by the store is not
modelled, the inbox-side `InboxNotification` carries it instead). -/
structure NotificationRecord where
  orderId : String
  orderNumber : String
  customerName : String
  totalAmount : Nat
  type : NotificationType
  message : String
  read : Bool
deriving DecidableEq, Repr

/-- `saveNotification` as called by `loadOrders` for a new order:
`saveNotification(order, 'new_order', "New order #... received")`. -/
def newOrderNotifLoad (o : Order) : NotificationRecord :=
  { orderId := o.id
    orderNumber := o.orderNumber
    customerName := o.customerName
    totalAmount := o.totalAmount
    type := NotificationType.new_order
    message := "New order #" ++ o.orderNumber ++ " received"
    read := false }

/-- `saveNotification` as called by `fetchOrders` for a new order:
`saveNotification(order, 'new_order', "New order received from ... - ...")`. -/
def newOrderNotifFetch (o : Order) : NotificationRecord :=
  { orderId := o.id
    orderNumber := o.orderNumber
    customerName := o.customerName
    totalAmount := o.totalAmount
    type := NotificationType.new_order
    message := "New order received from " ++ o.customerName
    read := false }

/-- The identifiers of a fetched collection (`ordersData.map(order => order.id)`). -/
def orderIds (ordersData : List Order) : List String :=
  ordersData.map (fun o => o.id)

/-- Snapshot-differ output of the `loadOrders` variant: the identifiers of
`ordersData` absent from `previousOrdersRef.current` (the `newIds` set built
by the `ordersData.forEach` loop). -/
def loadOrdersNewIds (prev : List String) (ordersData : List Order) : List String :=
  (ordersData.filter (fun o => !(prev.contains o.id))).map (fun o => o.id)

/-- Notifications persisted by one `loadOrders` pass: for each order absent
from the previous snapshot, `saveNotification` runs only under the
`previousOrdersRef.current.size > 0` guard. -/
def loadOrdersNotifs (prev : List String) (ordersData : List Order) :
    List NotificationRecord :=
  if prev.isEmpty then []
  else (ordersData.filter (fun o => !(prev.contains o.id))).map newOrderNotifLoad

/-- The engine state of the `loadOrders` variant that the poll path mutates:
`previousOrdersRef.current` and the persisted notification collection. -/
structure LoadState where
  previousOrders : List String
  notifications : List NotificationRecord
deriving DecidableEq, Repr

/-- State at component mount: `useRef<Set<string>>(new Set())` and an empty
notification collection. -/
def initLoadState : LoadState :=
  { previousOrders := [], notifications := [] }

/-- One successful `loadOrders` pass over fetched data: persist the guarded
notifications, then `previousOrdersRef.current = currentOrderIds`. -/
def loadOrdersStepOk (s : LoadState) (ordersData : List Order) : LoadState :=
  { previousOrders := orderIds ordersData
    notifications := s.notifications ++ loadOrdersNotifs s.previousOrders ordersData }

/-- One `loadOrders` call; `none` is the `catch` branch of a failed
`getDocs`, which logs and leaves every piece of engine state untouched. -/
def loadOrdersStep (s : LoadState) (fetch : Option (List Order)) : LoadState :=
  match fetch with
  | none => s
  | some ordersData => loadOrdersStepOk s ordersData

/-- A run of successive `loadOrders` poll cycles. -/
def loadOrdersRun (s : LoadState) : List (Option (List Order)) → LoadState
  | [] => s
  | f :: fs => loadOrdersRun (loadOrdersStep s f) fs

/-- A run of successive successful `loadOrders` poll cycles. -/
def loadOrdersRunOk (s : LoadState) : List (List Order) → LoadState
  | [] => s
  | f :: fs => loadOrdersRunOk (loadOrdersStepOk s f) fs

/-- Snapshot-differ output of the `fetchOrders` variant: the whole
`docChanges` block runs only under `if (!loading)`; for a one-shot `getDocs`
snapshot every document is an `added` change, and an id is treated as new when
absent from `previousOrdersRef.current`. -/
def fetchOrdersNewIds (loading : Bool) (prev : List String) (ordersData : List Order) :
    List String :=
  if loading then []
  else (ordersData.filter (fun o => !(prev.contains o.id))).map (fun o => o.id)

/-- Notifications persisted by one `fetchOrders` pass: one per newly observed
id, suppressed wholesale while `loading` is still `true`. -/
def fetchOrdersNotifs (loading : Bool) (prev : List String) (ordersData : List Order) :
    List NotificationRecord :=
  if loading then []
  else (ordersData.filter (fun o => !(prev.contains o.id))).map newOrderNotifFetch

/-- The engine state of the `fetchOrders` variant: the `loading` flag,
`previousOrdersRef.current`, and the persisted notification collection. -/
structure FetchState where
  loading : Bool
  previousOrders : List String
  notifications : List NotificationRecord
deriving DecidableEq, Repr

/-- State at component mount: `useState(true)` for `loading`, empty ref. -/
def initFetchState : FetchState :=
  { loading := true, previousOrders := [], notifications := [] }

/-- One `fetchOrders` call.  On success the dedup block runs against the
captured `loading`, then the snapshot is replaced and `setLoading(false)`
runs; on failure (`catch` + `finally`) only `setLoading(false)` runs. -/
def fetchOrdersStep (s : FetchState) (fetch : Option (List Order)) : FetchState :=
  match fetch with
  | none => { s with loading := false }
  | some ordersData =>
      { loading := false
        previousOrders := orderIds ordersData
        notifications := s.notifications ++ fetchOrdersNotifs s.loading s.previousOrders ordersData }

/-- A run of successive `fetchOrders` poll cycles. -/
def fetchOrdersRun (s : FetchState) : List (Option (List Order)) → FetchState
  | [] => s
  | f :: fs => fetchOrdersRun (fetchOrdersStep s f) fs

/-- Notifications referencing order identifier `O` in a collection. -/
def countNotifsFor (notifs : List NotificationRecord) (O : String) : Nat :=
  notifs.countP (fun n => n.orderId == O)

/-- Notifications of a given type in a collection. -/
def countNotifsOfType (notifs : List NotificationRecord) (t : NotificationType) : Nat :=
  notifs.countP (fun n => n.type == t)

/-!  Ephemeral Highlight Tracker.

`newOrderIds` plus every pending `setTimeout` callback, as one machine.  A
pending timer is `(deadline, scheduledIds)`.  Events (marks, timer firings,
queries) are processed in timestamp order; due timers are drained before each
later mark and before a query, which reproduces the real firing order because
nothing else observes the set between events. -/

structure HLState where
  fresh : List String
  timers : List (Nat × List String)
deriving DecidableEq, Repr

/-- Highlight state at mount: empty set, no pending timers. -/
def initHLState : HLState := { fresh := [], timers := [] }

/-- Drain the timers due at `now` under `loadOrders` semantics: each callback
is `setNewOrderIds(new Set())`, i.e. it clears the whole set. -/
def fireDueLoad (s : HLState) (now : Nat) : HLState :=
  if s.timers.any (fun tp => tp.1 ≤ now) then
    { fresh := [], timers := s.timers.filter (fun tp => !(tp.1 ≤ now)) }
  else s

/-- Drain the timers due at `now` under `fetchOrders` semantics: each callback
deletes exactly the identifier it was scheduled for. -/
def fireDueFetch (s : HLState) (now : Nat) : HLState :=
  { fresh := s.fresh.filter (fun id =>
      !((s.timers.filter (fun tp => tp.1 ≤ now)).any (fun tp => tp.2.contains id)))
    timers := s.timers.filter (fun tp => !(tp.1 ≤ now)) }

/-- `markFresh` under `loadOrders` semantics (lines 466-468): guarded by
`newIds.size > 0`, it replaces the whole set with `newIds` and schedules one
clear-all timer 5000 ms out. -/
def markLoad (s : HLState) (t : Nat) (ids : List String) : HLState :=
  let s := fireDueLoad s t
  if ids.isEmpty then s
  else { fresh := ids, timers := s.timers ++ [(t + 5000, ids)] }

/-- The add-and-schedule stage of a `fetchOrders` mark: each id is added to
the set (`new Set(prev).add(id)`) and one deletion timer for the batch is
scheduled 5000 ms out (the source schedules one per id, all with the same
deadline and each deleting exactly its own id, which this batch represents). -/
def markStage (s : HLState) (t : Nat) (ids : List String) : HLState :=
  if ids.isEmpty then s
  else { fresh := s.fresh ++ ids.filter (fun id => !(s.fresh.contains id))
         timers := s.timers ++ [(t + 5000, ids)] }

/-- `markFresh` under `fetchOrders` semantics (lines 90-97): timers due by
now have fired, then each id is added and its deletion timer scheduled. -/
def markFetch (s : HLState) (t : Nat) (ids : List String) : HLState :=
  markStage (fireDueFetch s t) t ids

/-- A chronological run of `markFresh` calls, `loadOrders` semantics. -/
def runMarksLoad (s : HLState) : List (Nat × List String) → HLState
  | [] => s
  | (t, ids) :: ms => runMarksLoad (markLoad s t ids) ms

/-- A chronological run of `markFresh` calls, `fetchOrders` semantics. -/
def runMarksFetch (s : HLState) : List (Nat × List String) → HLState
  | [] => s
  | (t, ids) :: ms => runMarksFetch (markFetch s t ids) ms

/-- `newOrderIds.has(id)` evaluated at query time `q`, `loadOrders` variant. -/
def isFreshLoad (s : HLState) (q : Nat) (id : String) : Bool :=
  (fireDueLoad s q).fresh.contains id

/-- `newOrderIds.has(id)` evaluated at query time `q`, `fetchOrders` variant. -/
def isFreshFetch (s : HLState) (q : Nat) (id : String) : Bool :=
  (fireDueFetch s q).fresh.contains id

/-!  Admin-initiated status / payment transitions. -/

/-- `updateDoc(doc(db, 'orders', orderId), { status: newStatus })`. -/
def updateOrderStatus (db : List Order) (orderId newStatus : String) : List Order :=
  db.map (fun o => if o.id == orderId then { o with status := newStatus } else o)

/-- `updateDoc(doc(db, 'orders', orderId), { paymentStatus: p })`. -/
def updateOrderPayment (db : List Order) (orderId newPayment : String) : List Order :=
  db.map (fun o => if o.id == orderId then { o with paymentStatus := newPayment } else o)

/-- The `status_update` record `handleStatusUpdate` persists, built from the
stale local copy of the order and the new status. -/
def statusUpdateNotif (o : Order) (newStatus : String) : NotificationRecord :=
  { orderId := o.id
    orderNumber := o.orderNumber
    customerName := o.customerName
    totalAmount := o.totalAmount
    type := NotificationType.status_update
    message := "Order #" ++ o.orderNumber ++ " status updated to " ++ newStatus
    read := false }

/-- The `payment_update` record `handlePaymentStatusUpdate` persists. -/
def paymentUpdateNotif (o : Order) (newPayment : String) : NotificationRecord :=
  { orderId := o.id
    orderNumber := o.orderNumber
    customerName := o.customerName
    totalAmount := o.totalAmount
    type := NotificationType.payment_update
    message := "Order #" ++ o.orderNumber ++ " payment status updated to " ++ newPayment
    read := false }

/-- `handleStatusUpdate` (loadOrders variant, lines 555-569): write the new
status, look the order up in the local `orders` state, and if found persist
exactly one `status_update` notification. -/
def handleStatusUpdate (db localOrders : List Order) (notifs : List NotificationRecord)
    (orderId newStatus : String) : List Order × List NotificationRecord :=
  ( updateOrderStatus db orderId newStatus
  , match localOrders.find? (fun o => o.id == orderId) with
    | some o => notifs ++ [statusUpdateNotif o newStatus]
    | none => notifs )

/-- `handlePaymentStatusUpdate` (loadOrders variant, lines 571-585). -/
def handlePaymentStatusUpdate (db localOrders : List Order) (notifs : List NotificationRecord)
    (orderId newPayment : String) : List Order × List NotificationRecord :=
  ( updateOrderPayment db orderId newPayment
  , match localOrders.find? (fun o => o.id == orderId) with
    | some o => notifs ++ [paymentUpdateNotif o newPayment]
    | none => notifs )

/-- `updateDeliveryStatus` (fetchOrders variant, lines 199-213): writes the
new status and logs; it invokes `saveNotification` nowhere. -/
def updateDeliveryStatus (db : List Order) (notifs : List NotificationRecord)
    (orderId newStatus : String) : List Order × List NotificationRecord :=
  (updateOrderStatus db orderId newStatus, notifs)

/-- `updatePaymentStatus` (fetchOrders variant, lines 216-230): likewise
notification-free. -/
def updatePaymentStatus (db : List Order) (notifs : List NotificationRecord)
    (orderId newPayment : String) : List Order × List NotificationRecord :=
  (updateOrderPayment db orderId newPayment, notifs)

/-!  Store Name Cache. -/

/-- The `storeNames` map, as an association list where an insert shadows older
entries (JS object spread `\x7b...prev, [storeId]: name\x7d`). -/
def storeNamesGet (cache : List (String × String)) (storeId : String) : Option String :=
  (cache.find? (fun p => p.1 == storeId)).map (fun p => p.2)

/-- The caller-side hit test `storeNames[order.storeId]` is a JS truthiness
check, so a cached empty string still counts as a miss. -/
def storeNamesHit (cache : List (String × String)) (storeId : String) : Bool :=
  match storeNamesGet cache storeId with
  | some name => !name.isEmpty
  | none => false

/-- `fetchStoreName` (lines 409-422): the external `getDoc` outcome is
`lookup : Option String` (`none` covers both `!exists()` and the catch
branch).  On success the name is written into `storeNames` before being
returned; otherwise the cache is untouched and `null` is returned. -/
def fetchStoreName (cache : List (String × String)) (storeId : String)
    (lookup : Option String) : List (String × String) × Option String :=
  match lookup with
  | some name => ((storeId, name) :: cache, some name)
  | none => (cache, none)

/-- Outcome of one resolution request: the cache afterwards, the value
returned, and how many external lookups were performed. -/
structure ResolveResult where
  cache : List (String × String)
  result : Option String
  lookups : Nat
deriving DecidableEq, Repr

/-- Store-name resolution as driven by the caller (loadOrders line 461-463):
`if (order.storeId && !storeNames[order.storeId]) fetchStoreName(...)`; a hit
serves the cached name with no lookup, a miss performs exactly one lookup. -/
def resolveStoreName (cache : List (String × String)) (storeId : String)
    (lookup : Option String) : ResolveResult :=
  if storeNamesHit cache storeId then
    { cache := cache, result := storeNamesGet cache storeId, lookups := 0 }
  else
    let r := fetchStoreName cache storeId lookup
    { cache := r.1, result := r.2, lookups := 1 }

/-!  Notification Inbox (`NotificationHistory`, src/unnamed/part_003). -/

/-- A persisted notification as the inbox reads it: the document id plus the
fields `handleNotificationClick` and the unread counter touch. -/
structure InboxNotification where
  id : String
  orderId : String
  type : NotificationType
  read : Bool
  createdAt : Nat
deriving DecidableEq, Repr

/-- `markAsRead(notificationId)` (lines 40-49): `updateDoc` sets `read: true`
on exactly the document with that id. -/
def markAsRead (db : List InboxNotification) (notificationId : String) :
    List InboxNotification :=
  db.map (fun n => if n.id == notificationId then { n with read := true } else n)

/-- `handleNotificationClick` (lines 51-59): marks the clicked notification
read only when it is still unread, then navigates. -/
def handleNotificationClick (db : List InboxNotification) (n : InboxNotification) :
    List InboxNotification :=
  if n.read then db else markAsRead db n.id

/-- Insertion into a most-recent-first list (ties keep earlier elements
first), used to model the collaborator's `orderBy('createdAt', 'desc')`. -/
def insertByCreatedDesc (n : InboxNotification) :
    List InboxNotification → List InboxNotification
  | [] => [n]
  | m :: ms =>
      if n.createdAt ≤ m.createdAt then m :: insertByCreatedDesc n ms
      else n :: m :: ms

/-- The persisted collection sorted most-recent-first. -/
def sortByCreatedDesc : List InboxNotification → List InboxNotification
  | [] => []
  | n :: ns => insertByCreatedDesc n (sortByCreatedDesc ns)

/-- The feed query (lines 16-38): `orderBy('createdAt', 'desc')` with
`limit(50)`. -/
def notificationFeed (db : List InboxNotification) : List InboxNotification :=
  (sortByCreatedDesc db).take 50

/-- `unreadCount = notifications.filter(n => !n.read).length` (line 98),
evaluated over whatever list the component holds. -/
def unreadCount (notifications : List InboxNotification) : Nat :=
  (notifications.filter (fun n => !n.read)).length

/-- The unread badge the inbox displays: the count over the bounded feed. -/
def displayedUnreadCount (db : List InboxNotification) : Nat :=
  unreadCount (notificationFeed db)

/-!  Concrete records used by counterexamples and witnesses. -/

/-- A pre-existing order, id `"A"`. -/
def oA : Order := ⟨"A", "1001", "Asha", 250, "pending", "pending", "s1", 1⟩

/-- An order first observed after engine start, id `"O"`. -/
def oO : Order := ⟨"O", "1002", "Omar", 300, "pending", "pending", "s1", 2⟩

/-!  General lemmas about the poll-cycle models. -/

theorem loadOrdersRunOk_append (xs ys : List (List Order)) :
    ∀ s, loadOrdersRunOk s (xs ++ ys) = loadOrdersRunOk (loadOrdersRunOk s xs) ys := by
  induction xs with
  | nil => intro s; rfl
  | cons x xs ih => intro s; simp [loadOrdersRunOk, ih]

theorem countNotifsFor_append (a b : List NotificationRecord) (O : String) :
    countNotifsFor (a ++ b) O = countNotifsFor a O + countNotifsFor b O := by
  simp [countNotifsFor, List.countP_append]

/-- The order-id count of the notifications one `loadOrders` pass persists. -/
theorem countNotifsFor_loadOrdersNotifs (prev : List String) (f : List Order) (O : String) :
    countNotifsFor (loadOrdersNotifs prev f) O =
      if prev.isEmpty then 0
      else (f.filter (fun o => !(prev.contains o.id))).countP (fun o => o.id == O) := by
  by_cases h : prev.isEmpty
  · simp [loadOrdersNotifs, countNotifsFor, h]
  · simp [loadOrdersNotifs, countNotifsFor, h, List.countP_map, Function.comp]
    rfl

theorem countNotifsFor_stepOk (s : LoadState) (f : List Order) (O : String) :
    countNotifsFor (loadOrdersStepOk s f).notifications O =
      countNotifsFor s.notifications O +
        countNotifsFor (loadOrdersNotifs s.previousOrders f) O := by
  simp [loadOrdersStepOk, countNotifsFor_append]

/-- Cycles in which `O` never appears persist no notification referencing `O`. -/
theorem loadOrdersRunOk_count_of_notMem (O : String) :
    ∀ (fetches : List (List Order)) (s : LoadState),
      (∀ g ∈ fetches, ∀ o ∈ g, o.id ≠ O) →
      countNotifsFor (loadOrdersRunOk s fetches).notifications O =
        countNotifsFor s.notifications O := by
  intro fetches
  induction fetches with
  | nil => intro s _; rfl
  | cons f fs ih =>
    intro s h
    have hf : ∀ o ∈ f, o.id ≠ O := h f (by simp)
    have hrest : ∀ g ∈ fs, ∀ o ∈ g, o.id ≠ O := fun g hg => h g (by simp [hg])
    rw [loadOrdersRunOk, ih _ hrest, countNotifsFor_stepOk]
    have hz : countNotifsFor (loadOrdersNotifs s.previousOrders f) O = 0 := by
      rw [countNotifsFor_loadOrdersNotifs]
      split
      · rfl
      · apply List.countP_eq_zero.mpr
        intro o ho
        have := hf o (List.mem_of_mem_filter ho)
        simp [this]
    omega

/-- Once `O` is in the snapshot and stays in every fetched collection, no
further cycle persists a notification referencing `O`. -/
theorem loadOrdersRunOk_count_of_mem (O : String) :
    ∀ (post : List (List Order)) (s : LoadState),
      O ∈ s.previousOrders →
      (∀ g ∈ post, ∃ o ∈ g, o.id = O) →
      countNotifsFor (loadOrdersRunOk s post).notifications O =
        countNotifsFor s.notifications O := by
  intro post
  induction post with
  | nil => intro s _ _; rfl
  | cons g gs ih =>
    intro s hO hpost
    have hg : ∃ o ∈ g, o.id = O := hpost g (by simp)
    have hrest : ∀ g' ∈ gs, ∃ o ∈ g', o.id = O := fun g' hg' => hpost g' (by simp [hg'])
    have hmem : O ∈ (loadOrdersStepOk s g).previousOrders := by
      obtain ⟨o, ho, hid⟩ := hg
      simp [loadOrdersStepOk, orderIds]
      exact ⟨o, ho, hid⟩
    rw [loadOrdersRunOk, ih _ hmem hrest, countNotifsFor_stepOk]
    have hz : countNotifsFor (loadOrdersNotifs s.previousOrders g) O = 0 := by
      rw [countNotifsFor_loadOrdersNotifs]
      split
      · rfl
      · apply List.countP_eq_zero.mpr
        intro o ho
        rw [List.mem_filter] at ho
        intro hbeq
        have hid : o.id = O := eq_of_beq hbeq
        rw [hid] at ho
        simp [hO] at ho
    omega

/-- A cycle whose fetch introduces `O` (exactly one record), against a
non-empty snapshot not containing `O`, persists exactly one more notification
referencing `O` and installs `O` into the snapshot. -/
theorem countNotifsFor_stepOk_new (s : LoadState) (f : List Order) (O : String)
    (hO : O ∉ s.previousOrders) (hne : s.previousOrders ≠ [])
    (hf : f.countP (fun o => o.id == O) = 1) :
    countNotifsFor (loadOrdersStepOk s f).notifications O =
        countNotifsFor s.notifications O + 1 ∧
      O ∈ (loadOrdersStepOk s f).previousOrders := by
  constructor
  · rw [countNotifsFor_stepOk, countNotifsFor_loadOrdersNotifs]
    rw [if_neg (by simpa [List.isEmpty_iff] using hne)]
    have hcong :
        (f.filter (fun o => !(s.previousOrders.contains o.id))).countP
            (fun o => o.id == O) = f.countP (fun o => o.id == O) := by
      rw [List.countP_filter]
      apply List.countP_congr
      intro o _
      by_cases h : o.id == O
      · have hid : o.id = O := eq_of_beq h
        simp [h, hid, hO]
      · simp [h]
    rw [hcong, hf]
  · have hpos : 0 < f.countP (fun o => o.id == O) := by omega
    obtain ⟨o, ho, hid⟩ := List.countP_pos_iff.mp hpos
    simp [loadOrdersStepOk, orderIds]
    exact ⟨o, ho, eq_of_beq hid⟩

/-- C1 (counterexample): the claim asserts the differ reports zero new
identifiers on the very first invocation regardless of the fetched
collection's contents; in the `loadOrders` variant the first pass over the
non-empty collection `[oA]` puts `"A"` into `newIds` (it is highlighted as
new), so the differ output is not zero. -/
theorem c1_bootstrap_differ_not_empty_counterexample :
    loadOrdersNewIds initLoadState.previousOrders [oA] = ["A"] ∧
      loadOrdersNewIds initLoadState.previousOrders [oA] ≠ [] := by
  constructor <;> decide

/-- C1 (amended): on the first poll cycle after engine start, zero
`new_order` notifications are persisted in both variants, for every fetched
collection; in the `fetchOrders` variant the differ output is moreover empty,
while in the `loadOrders` variant the differ reports every fetched identifier
(they are highlighted but not notified). -/
theorem c1_bootstrap_suppression (ordersData : List Order) :
    (loadOrdersStep initLoadState (some ordersData)).notifications = [] ∧
      (fetchOrdersStep initFetchState (some ordersData)).notifications = [] ∧
      fetchOrdersNewIds initFetchState.loading initFetchState.previousOrders ordersData = [] ∧
      loadOrdersNewIds initLoadState.previousOrders ordersData = orderIds ordersData := by
  refine ⟨rfl, rfl, rfl, ?_⟩
  simp [loadOrdersNewIds, orderIds, initLoadState]

/-- C2 (counterexample): the claim asserts at most one `new_order`
notification per identifier per engine lifetime, and exactly one for any run
in which `O` is first observed exactly once.  In the run
`[[oA], [oA, oO], [oA], [oA, oO]]` the order `"O"` is first observed once (at
cycle 2), yet after it drops out of one fetch and reappears the engine
persists a second notification: the count is 2, not 1. -/
theorem c2_duplicate_new_order_counterexample :
    countNotifsFor
        ((loadOrdersRunOk initLoadState [[oA], [oA, oO], [oA], [oA, oO]]).notifications)
        "O" = 2 ∧
      countNotifsFor
        ((loadOrdersRunOk initLoadState [[oA], [oA, oO], [oA], [oA, oO]]).notifications)
        "O" ≠ 1 := by
  constructor <;> decide

/-- C2 (amended): in the `loadOrders` variant, if `O` first appears in cycle
`k ≥ 2` (so not in the bootstrap poll), the collection fetched in cycle
`k - 1` was non-empty, `O` occurs exactly once in cycle `k`'s collection, and
`O` stays present in every later cycle, then exactly one `new_order`
notification referencing `O` is persisted, regardless of the number of
cycles. -/
theorem c2_new_order_exactly_once (pre0 : List (List Order)) (g0 f : List Order)
    (post : List (List Order)) (O : String)
    (hpre : ∀ g ∈ pre0 ++ [g0], ∀ o ∈ g, o.id ≠ O)
    (hg0 : g0 ≠ [])
    (hf : f.countP (fun o => o.id == O) = 1)
    (hpost : ∀ g ∈ post, ∃ o ∈ g, o.id = O) :
    countNotifsFor
      ((loadOrdersRunOk initLoadState ((pre0 ++ [g0]) ++ f :: post)).notifications) O = 1 := by
  rw [loadOrdersRunOk_append]
  have hcount1 :
      countNotifsFor (loadOrdersRunOk initLoadState (pre0 ++ [g0])).notifications O = 0 := by
    rw [loadOrdersRunOk_count_of_notMem O _ _ hpre]; rfl
  have hprev1 :
      (loadOrdersRunOk initLoadState (pre0 ++ [g0])).previousOrders = orderIds g0 := by
    rw [loadOrdersRunOk_append]; rfl
  have hOnot : O ∉ (loadOrdersRunOk initLoadState (pre0 ++ [g0])).previousOrders := by
    rw [hprev1]
    simp only [orderIds, List.mem_map, not_exists]
    rintro o ⟨ho, hid⟩
    exact hpre g0 (by simp) o ho hid
  have hne : (loadOrdersRunOk initLoadState (pre0 ++ [g0])).previousOrders ≠ [] := by
    rw [hprev1]
    simpa [orderIds] using hg0
  obtain ⟨hc, hmem⟩ :=
    countNotifsFor_stepOk_new (loadOrdersRunOk initLoadState (pre0 ++ [g0])) f O hOnot hne hf
  rw [loadOrdersRunOk, loadOrdersRunOk_count_of_mem O post _ hmem hpost, hc, hcount1]

/-- C2 (witness): concrete instantiation with cycles
`[[oA], [oA, oO], [oA, oO]]` - `"O"` first appears in cycle 2 against the
non-empty snapshot from cycle 1 and stays; exactly one notification results. -/
theorem c2_new_order_exactly_once_witness :
    (∀ g ∈ ([] : List (List Order)) ++ [[oA]], ∀ o ∈ g, o.id ≠ "O") ∧
      [oA] ≠ ([] : List Order) ∧
      ([oA, oO].countP (fun o => o.id == "O") = 1) ∧
      (∀ g ∈ [[oA, oO]], ∃ o ∈ g, o.id = "O") ∧
      countNotifsFor
        ((loadOrdersRunOk initLoadState (([] ++ [[oA]]) ++ [oA, oO] :: [[oA, oO]])).notifications)
        "O" = 1 :=
  ⟨by decide, by decide, by decide, by decide,
    c2_new_order_exactly_once [] [oA] [oA, oO] [[oA, oO]] "O"
      (by decide) (by decide) (by decide) (by decide)⟩

/-- C3 (counterexample): the claim asserts that when the first poll returns an
empty collection, an order first observed on the second poll cycle still
yields a `new_order` notification.  In the `loadOrders` variant bootstrap is
detected by `previousOrdersRef.current.size > 0`, so after an empty first
fetch the second cycle observing `oO` persists nothing. -/
theorem c3_empty_first_poll_counterexample :
    countNotifsFor ((loadOrdersRun initLoadState [some [], some [oO]]).notifications) "O"
      = 0 := by
  decide

/-- C3 (amended): the `fetchOrders` variant detects the first poll by the
explicit `loading` flag, so after an empty first fetch an order first observed
on the second cycle yields its notification; the `loadOrders` variant detects
bootstrap by emptiness of the previous snapshot, so the same run yields no
notification there. -/
theorem c3_first_poll_flag_vs_emptiness (o : Order) :
    (fetchOrdersRun initFetchState [some [], some [o]]).notifications
        = [newOrderNotifFetch o] ∧
      (loadOrdersRun initLoadState [some [], some [o]]).notifications = [] := by
  constructor <;> rfl

/-- C7 (confirmed): a failed fetch abandons the cycle leaving `SnapshotState`
(and the persisted notifications) exactly as they were, and the following
cycles proceed as scheduled: a run beginning with a failed cycle continues
exactly like the run without it (`loadOrders`), and in the `fetchOrders`
variant the failed cycle touches nothing but the `loading` flag. -/
theorem c7_cycle_isolation_on_failure :
    (∀ s : LoadState, loadOrdersStep s none = s) ∧
      (∀ (s : LoadState) (fs : List (Option (List Order))),
        loadOrdersRun s (none :: fs) = loadOrdersRun s fs) ∧
      (∀ s : FetchState,
        (fetchOrdersStep s none).previousOrders = s.previousOrders ∧
          (fetchOrdersStep s none).notifications = s.notifications) ∧
      (∀ (s : FetchState) (fs : List (Option (List Order))),
        fetchOrdersRun s (none :: fs) = fetchOrdersRun { s with loading := false } fs) :=
  ⟨fun _ => rfl, fun _ _ => rfl, fun _ => ⟨rfl, rfl⟩, fun _ _ => rfl⟩

/-- C4 (counterexample): the claim asserts a timer removes only the
identifiers it was scheduled for.  Under `loadOrders` semantics, mark `"A"`
at t=0 and `"B"` at t=3000; when the t=0 timer (scheduled for `"A"` only)
fires at t=5000, it clears the whole set, so `"B"` is gone at t=5000 even
though marking `"B"` alone would leave it fresh until t=8000. -/
theorem c4_whole_set_clear_counterexample :
    isFreshLoad (runMarksLoad initHLState [(0, ["A"]), (3000, ["B"])]) 5000 "B" = false ∧
      isFreshLoad (runMarksLoad initHLState [(3000, ["B"])]) 5000 "B" = true := by
  constructor <;> decide

/-- C4 (amended): in the `fetchOrders` variant the timers due at a given time
remove exactly the identifiers they were scheduled for (an identifier stays
fresh iff it was fresh and no due timer was scheduled for it); in the
`loadOrders` variant any due timer clears the entire highlight set. -/
theorem c4_per_identifier_removal :
    (∀ (s : HLState) (now : Nat) (id : String),
        id ∈ (fireDueFetch s now).fresh ↔
          id ∈ s.fresh ∧ ∀ tp ∈ s.timers, tp.1 ≤ now → id ∉ tp.2) ∧
      (∀ (s : HLState) (now : Nat),
        s.timers.any (fun tp => tp.1 ≤ now) = true → (fireDueLoad s now).fresh = []) := by
  constructor
  · intro s now id
    simp [fireDueFetch, List.mem_filter, List.any_eq_true]
  · intro s now h
    simp [fireDueLoad, h]

/-- C4 (witness): with two pending timers `(5000, ["A"])` and
`(8000, ["B"])`, draining at t=5000 under per-identifier semantics keeps
`"B"` fresh; under `loadOrders` semantics the set is cleared. -/
theorem c4_per_identifier_removal_witness :
    "B" ∈ (fireDueFetch ⟨["A", "B"], [(5000, ["A"]), (8000, ["B"])]⟩ 5000).fresh ∧
      (fireDueLoad ⟨["A", "B"], [(5000, ["A"]), (8000, ["B"])]⟩ 5000).fresh = [] :=
  ⟨(c4_per_identifier_removal.1 ⟨["A", "B"], [(5000, ["A"]), (8000, ["B"])]⟩ 5000 "B").mpr
      (by decide),
    c4_per_identifier_removal.2 ⟨["A", "B"], [(5000, ["A"]), (8000, ["B"])]⟩ 5000 (by decide)⟩

/-!  Invariants of the per-identifier (`fetchOrders`) highlight machine,
tracking one identifier through an arbitrary run of `markFresh` calls. -/

/-- No trace of `id` in the highlight machine: not in the fresh set and in no
pending timer batch. -/
def noHighlight (id : String) (s : HLState) : Prop :=
  id ∉ s.fresh ∧ ∀ tp ∈ s.timers, id ∉ tp.2

/-- `id` is in the fresh set, some pending timer batch contains `id`, and
every pending timer batch containing `id` carries the deadline `d`. -/
def soleDeadline (id : String) (d : Nat) (s : HLState) : Prop :=
  id ∈ s.fresh ∧ (∀ tp ∈ s.timers, id ∈ tp.2 → tp.1 = d) ∧ ∃ tp ∈ s.timers, id ∈ tp.2

theorem mem_fresh_fireDueFetch (s : HLState) (now : Nat) (id : String) :
    id ∈ (fireDueFetch s now).fresh ↔
      id ∈ s.fresh ∧ ∀ tp ∈ s.timers, tp.1 ≤ now → id ∉ tp.2 := by
  simp [fireDueFetch, List.mem_filter, List.any_eq_true]

theorem mem_timers_fireDueFetch (s : HLState) (now : Nat) (tp : Nat × List String) :
    tp ∈ (fireDueFetch s now).timers ↔ tp ∈ s.timers ∧ ¬ tp.1 ≤ now := by
  simp [fireDueFetch, List.mem_filter]

theorem noHighlight_fireDueFetch (id : String) (s : HLState) (now : Nat)
    (h : noHighlight id s) : noHighlight id (fireDueFetch s now) := by
  constructor
  · intro hm
    exact h.1 ((mem_fresh_fireDueFetch s now id).mp hm).1
  · intro tp htp
    exact h.2 tp ((mem_timers_fireDueFetch s now tp).mp htp).1

theorem noHighlight_markStage (id : String) (t : Nat) (ids : List String) (s : HLState)
    (hid : id ∉ ids) (h : noHighlight id s) : noHighlight id (markStage s t ids) := by
  rw [markStage]
  by_cases he : ids.isEmpty
  · rw [if_pos he]; exact h
  · rw [if_neg he]
    refine ⟨?_, ?_⟩
    · intro hm
      rcases List.mem_append.mp hm with hm | hm
      · exact h.1 hm
      · exact hid (List.mem_of_mem_filter hm)
    · intro tp htp hm
      rcases List.mem_append.mp htp with htp | htp
      · exact h.2 tp htp hm
      · rw [List.mem_singleton.mp htp] at hm
        exact hid hm

theorem noHighlight_markFetch (id : String) (t : Nat) (ids : List String) (s : HLState)
    (hid : id ∉ ids) (h : noHighlight id s) : noHighlight id (markFetch s t ids) :=
  noHighlight_markStage id t ids (fireDueFetch s t) hid (noHighlight_fireDueFetch id s t h)

theorem noHighlight_runMarksFetch (id : String) :
    ∀ (marks : List (Nat × List String)) (s : HLState),
      (∀ m ∈ marks, id ∉ m.2) → noHighlight id s →
      noHighlight id (runMarksFetch s marks) := by
  intro marks
  induction marks with
  | nil => intro s _ h; exact h
  | cons m ms ih =>
    intro s hm h
    obtain ⟨t, ids⟩ := m
    exact ih (markFetch s t ids) (fun m' hm' => hm m' (by simp [hm']))
      (noHighlight_markFetch id t ids s (hm (t, ids) (by simp)) h)

theorem soleDeadline_markStage (id : String) (d t : Nat) (ids : List String) (s : HLState)
    (hid : id ∉ ids) (h : soleDeadline id d s) : soleDeadline id d (markStage s t ids) := by
  obtain ⟨hf, hall, tp₀, htp₀, hm₀⟩ := h
  rw [markStage]
  by_cases he : ids.isEmpty
  · rw [if_pos he]; exact ⟨hf, hall, tp₀, htp₀, hm₀⟩
  · rw [if_neg he]
    refine ⟨List.mem_append.mpr (Or.inl hf), ?_,
      tp₀, List.mem_append.mpr (Or.inl htp₀), hm₀⟩
    intro tp htp hm
    rcases List.mem_append.mp htp with htp | htp
    · exact hall tp htp hm
    · rw [List.mem_singleton.mp htp] at hm
      exact absurd hm hid

theorem soleDeadline_markStage_new (id : String) (t : Nat) (ids : List String) (s : HLState)
    (hid : id ∈ ids) (h : noHighlight id s) :
    soleDeadline id (t + 5000) (markStage s t ids) := by
  have he : ids.isEmpty = false := by
    cases ids with
    | nil => cases hid
    | cons a l => rfl
  rw [markStage, if_neg (by simp [he])]
  refine ⟨?_, ?_, (t + 5000, ids),
    List.mem_append.mpr (Or.inr (List.mem_singleton.mpr rfl)), hid⟩
  · exact List.mem_append.mpr (Or.inr (List.mem_filter.mpr ⟨hid, by simp [h.1]⟩))
  · intro tp htp hm
    rcases List.mem_append.mp htp with htp | htp
    · exact absurd hm (h.2 tp htp)
    · rw [List.mem_singleton.mp htp]

theorem soleDeadline_fireDueFetch (id : String) (d : Nat) (s : HLState) (now : Nat)
    (h : soleDeadline id d s) (hlt : now < d) : soleDeadline id d (fireDueFetch s now) := by
  obtain ⟨hf, hall, tp₀, htp₀, hm₀⟩ := h
  refine ⟨(mem_fresh_fireDueFetch s now id).mpr ⟨hf, ?_⟩, ?_,
    tp₀, (mem_timers_fireDueFetch s now tp₀).mpr ⟨htp₀, ?_⟩, hm₀⟩
  · intro tp htp hle hm
    have := hall tp htp hm
    omega
  · intro tp htp hm
    exact hall tp ((mem_timers_fireDueFetch s now tp).mp htp).1 hm
  · have := hall tp₀ htp₀ hm₀
    omega

theorem noHighlight_fireDueFetch_due (id : String) (d : Nat) (s : HLState) (now : Nat)
    (h : soleDeadline id d s) (hge : d ≤ now) : noHighlight id (fireDueFetch s now) := by
  obtain ⟨hf, hall, tp₀, htp₀, hm₀⟩ := h
  constructor
  · intro hm
    obtain ⟨_, hno⟩ := (mem_fresh_fireDueFetch s now id).mp hm
    exact hno tp₀ htp₀ (by rw [hall tp₀ htp₀ hm₀]; exact hge) hm₀
  · intro tp htp hm
    obtain ⟨htps, hnle⟩ := (mem_timers_fireDueFetch s now tp).mp htp
    exact hnle (by rw [hall tp htps hm]; exact hge)

theorem isFreshFetch_of_noHighlight (id : String) (s : HLState) (q : Nat)
    (h : noHighlight id s) : isFreshFetch s q id = false := by
  have hm : id ∉ (fireDueFetch s q).fresh := fun hm =>
    h.1 ((mem_fresh_fireDueFetch s q id).mp hm).1
  simpa [isFreshFetch] using hm

theorem isFreshFetch_of_soleDeadline (id : String) (d : Nat) (s : HLState) (q : Nat)
    (h : soleDeadline id d s) : isFreshFetch s q id = decide (q < d) := by
  by_cases hq : q < d
  · have hm : id ∈ (fireDueFetch s q).fresh := (soleDeadline_fireDueFetch id d s q h hq).1
    simp [isFreshFetch, hm, hq]
  · have h' := noHighlight_fireDueFetch_due id d s q h (by omega)
    have hm : id ∉ (fireDueFetch s q).fresh := h'.1
    simp [isFreshFetch, hm, hq]

/-- Through later marks that never contain `id`, the tracked identifier
either keeps its sole deadline or was expired by a mark at a time ≥ `d`. -/
theorem soleDeadline_runMarksFetch (id : String) (d : Nat) :
    ∀ (post : List (Nat × List String)) (s : HLState),
      soleDeadline id d s → (∀ m ∈ post, id ∉ m.2) →
      soleDeadline id d (runMarksFetch s post) ∨
        (noHighlight id (runMarksFetch s post) ∧ ∃ m ∈ post, d ≤ m.1) := by
  intro post
  induction post with
  | nil => intro s h _; exact Or.inl h
  | cons m ms ih =>
    intro s h hm
    obtain ⟨t, ids⟩ := m
    have hid : id ∉ ids := hm (t, ids) (by simp)
    have hms : ∀ m' ∈ ms, id ∉ m'.2 := fun m' h' => hm m' (by simp [h'])
    by_cases hlt : t < d
    · have h1 : soleDeadline id d (markFetch s t ids) :=
        soleDeadline_markStage id d t ids (fireDueFetch s t) hid
          (soleDeadline_fireDueFetch id d s t h hlt)
      rcases ih (markFetch s t ids) h1 hms with h2 | ⟨h2, m', hm', hd⟩
      · exact Or.inl h2
      · exact Or.inr ⟨h2, m', by simp [hm'], hd⟩
    · have h1 : noHighlight id (markFetch s t ids) :=
        noHighlight_markStage id t ids (fireDueFetch s t) hid
          (noHighlight_fireDueFetch_due id d s t h (by omega))
      exact Or.inr ⟨noHighlight_runMarksFetch id ms (markFetch s t ids) hms h1,
        (t, ids), by simp, by omega⟩

theorem runMarksFetch_append (xs ys : List (Nat × List String)) :
    ∀ s, runMarksFetch s (xs ++ ys) = runMarksFetch (runMarksFetch s xs) ys := by
  induction xs with
  | nil => intro s; rfl
  | cons x xs ih =>
    intro s
    obtain ⟨t, ids⟩ := x
    simp [runMarksFetch, ih]

/-!  The `loadOrders` highlight machine after stale earlier marks. -/

theorem mem_timers_fireDueLoad (s : HLState) (now : Nat) (tp : Nat × List String)
    (h : tp ∈ (fireDueLoad s now).timers) : tp ∈ s.timers := by
  rw [fireDueLoad] at h
  split at h
  · exact (List.mem_filter.mp h).1
  · exact h

theorem mem_timers_markLoad (s : HLState) (t : Nat) (ids : List String)
    (tp : Nat × List String) (h : tp ∈ (markLoad s t ids).timers) :
    tp ∈ s.timers ∨ tp.1 = t + 5000 := by
  rw [markLoad] at h
  split at h
  · exact Or.inl (mem_timers_fireDueLoad s t tp h)
  · rcases List.mem_append.mp h with h | h
    · exact Or.inl (mem_timers_fireDueLoad s t tp h)
    · rw [List.mem_singleton.mp h]
      exact Or.inr rfl

theorem mem_timers_runMarksLoad :
    ∀ (marks : List (Nat × List String)) (s : HLState) (tp : Nat × List String),
      tp ∈ (runMarksLoad s marks).timers →
      tp ∈ s.timers ∨ ∃ m ∈ marks, tp.1 = m.1 + 5000 := by
  intro marks
  induction marks with
  | nil => intro s tp h; exact Or.inl h
  | cons m ms ih =>
    intro s tp h
    obtain ⟨t, ids⟩ := m
    rcases ih (markLoad s t ids) tp h with h1 | ⟨m', hm', he⟩
    · rcases mem_timers_markLoad s t ids tp h1 with h2 | h2
      · exact Or.inl h2
      · exact Or.inr ⟨(t, ids), by simp, h2⟩
    · exact Or.inr ⟨m', by simp [hm'], he⟩

theorem runMarksLoad_append (xs ys : List (Nat × List String)) :
    ∀ s, runMarksLoad s (xs ++ ys) = runMarksLoad (runMarksLoad s xs) ys := by
  induction xs with
  | nil => intro s; rfl
  | cons x xs ih =>
    intro s
    obtain ⟨t, ids⟩ := x
    simp [runMarksLoad, ih]

/-- When every pending timer is already due at `T`, a `loadOrders` mark with a
non-empty batch leaves exactly the fresh batch and its own timer. -/
theorem markLoad_after_stale (s : HLState) (T : Nat) (ids : List String)
    (h : ∀ tp ∈ s.timers, tp.1 ≤ T) (hne : ids.isEmpty = false) :
    markLoad s T ids = { fresh := ids, timers := [(T + 5000, ids)] } := by
  have hT : (fireDueLoad s T).timers = [] := by
    by_cases hany : s.timers.any (fun tp => tp.1 ≤ T)
    · rw [fireDueLoad, if_pos hany]
      refine List.eq_nil_iff_forall_not_mem.mpr fun tp htp => ?_
      have h1 := (List.mem_filter.mp htp).2
      have h2 := h tp (List.mem_filter.mp htp).1
      simp [h2] at h1
    · have hnil : s.timers = [] := by
        cases hts : s.timers with
        | nil => rfl
        | cons tp tps =>
          exfalso
          rw [hts] at hany
          simp only [List.any_cons, Bool.or_eq_true, not_or] at hany
          have := h tp (by rw [hts]; simp)
          simp [this] at hany
      rw [fireDueLoad, if_neg hany, hnil]
  rw [markLoad, if_neg (by simp [hne]), hT]
  rfl

/-- C5 (counterexample): the claim asserts an identifier marked at T and not
re-marked is fresh for every query in [T, T+5s) and only there.  Under
`loadOrders` semantics this fails in both directions it can: `"A"` marked at
t=0 is already gone at t=4000 because the `markFresh` call for `"B"` at
t=3000 replaced the whole set, and `"B"` marked at t=3000 is already gone at
t=5500 because the t=0 whole-set timer cleared it; neither identifier was
re-marked. -/
theorem c5_early_eviction_counterexample :
    isFreshLoad (runMarksLoad initHLState [(0, ["A"]), (3000, ["B"])]) 4000 "A" = false ∧
      isFreshLoad (runMarksLoad initHLState [(0, ["A"]), (3000, ["B"])]) 5500 "B" = false := by
  constructor <;> decide

/-- C5 (amended): an identifier marked fresh at time T and never re-marked is
reported fresh at any query time q ≥ T exactly while q < T + 5000 ms - in the
`fetchOrders` variant this holds as the claim states it, with `markFresh`
calls for other identifiers permitted freely both before the mark and before
the query; in the `loadOrders` variant it holds provided additionally every
earlier `markFresh` call happened at least 5 s before T and no further
`markFresh` call occurs before the query. -/
theorem c5_highlight_expiry_window :
    (∀ (pre post : List (Nat × List String)) (T : Nat) (ids : List String)
        (id : String) (q : Nat),
        id ∈ ids → T ≤ q → (∀ m ∈ pre, id ∉ m.2) → (∀ m ∈ post, id ∉ m.2) →
        (∀ m ∈ post, m.1 ≤ q) →
        isFreshFetch (runMarksFetch initHLState (pre ++ (T, ids) :: post)) q id
          = decide (q < T + 5000)) ∧
      (∀ (pre : List (Nat × List String)) (T : Nat) (ids : List String)
        (id : String) (q : Nat),
        id ∈ ids → T ≤ q → (∀ m ∈ pre, m.1 + 5000 ≤ T) →
        isFreshLoad (runMarksLoad initHLState (pre ++ [(T, ids)])) q id
          = decide (q < T + 5000)) := by
  constructor
  · intro pre post T ids id q hid hq hpre hpost hpostq
    rw [runMarksFetch_append]
    have h0 : noHighlight id (runMarksFetch initHLState pre) :=
      noHighlight_runMarksFetch id pre initHLState hpre
        ⟨by simp [initHLState], by simp [initHLState]⟩
    have h1 : soleDeadline id (T + 5000)
        (markFetch (runMarksFetch initHLState pre) T ids) :=
      soleDeadline_markStage_new id T ids (fireDueFetch (runMarksFetch initHLState pre) T)
        hid (noHighlight_fireDueFetch id (runMarksFetch initHLState pre) T h0)
    show isFreshFetch
        (runMarksFetch (markFetch (runMarksFetch initHLState pre) T ids) post) q id = _
    rcases soleDeadline_runMarksFetch id (T + 5000) post _ h1 hpost with h2 | ⟨h2, m, hm, hd⟩
    · exact isFreshFetch_of_soleDeadline id (T + 5000) _ q h2
    · have hge : T + 5000 ≤ q := le_trans hd (hpostq m hm)
      rw [isFreshFetch_of_noHighlight id _ q h2]
      simp
      omega
  · intro pre T ids id q hid hq hpre
    rw [runMarksLoad_append]
    have hall : ∀ tp ∈ (runMarksLoad initHLState pre).timers, tp.1 ≤ T := by
      intro tp htp
      rcases mem_timers_runMarksLoad pre initHLState tp htp with h | ⟨m, hm, he⟩
      · simp [initHLState] at h
      · rw [he]; exact hpre m hm
    have hne : ids.isEmpty = false := by
      cases ids with
      | nil => cases hid
      | cons a l => rfl
    show isFreshLoad (runMarksLoad (runMarksLoad initHLState pre) [(T, ids)]) q id = _
    have hrun : runMarksLoad (runMarksLoad initHLState pre) [(T, ids)]
        = markLoad (runMarksLoad initHLState pre) T ids := rfl
    rw [hrun, markLoad_after_stale (runMarksLoad initHLState pre) T ids hall hne]
    by_cases hlt : q < T + 5000
    · have hnotdue : ¬ (T + 5000 ≤ q) := by omega
      simp [isFreshLoad, fireDueLoad, hnotdue, hid, hlt]
    · have hdue : T + 5000 ≤ q := by omega
      simp [isFreshLoad, fireDueLoad, hdue, hlt]

/-- C5 (witness): `"A"` marked at T=3000 between an earlier mark of `"X"`
(5 s old in the `loadOrders` run) and, in the `fetchOrders` run, a later mark
of `"B"`, is still fresh at the last millisecond of its window. -/
theorem c5_highlight_expiry_window_witness :
    ("A" ∈ ["A"]) ∧ (3000 ≤ 7999) ∧
      (∀ m ∈ [((0 : Nat), ["X"])], "A" ∉ m.2) ∧
      (∀ m ∈ [((4000 : Nat), ["B"])], "A" ∉ m.2) ∧
      (∀ m ∈ [((4000 : Nat), ["B"])], m.1 ≤ 7999) ∧
      isFreshFetch (runMarksFetch initHLState ([(0, ["X"])] ++ (3000, ["A"]) :: [(4000, ["B"])]))
          7999 "A" = decide (7999 < 3000 + 5000) ∧
      (6000 ≤ 10999) ∧ (∀ m ∈ [((0 : Nat), ["X"])], m.1 + 5000 ≤ 6000) ∧
      isFreshLoad (runMarksLoad initHLState ([(0, ["X"])] ++ [(6000, ["A"])]))
          10999 "A" = decide (10999 < 6000 + 5000) :=
  ⟨by decide, by decide, by decide, by decide, by decide,
    c5_highlight_expiry_window.1 [(0, ["X"])] [(4000, ["B"])] 3000 ["A"] "A" 7999
      (by decide) (by decide) (by decide) (by decide) (by decide),
    by decide, by decide,
    c5_highlight_expiry_window.2 [(0, ["X"])] 6000 ["A"] "A" 10999
      (by decide) (by decide) (by decide)⟩

/-!  Notification-type accounting for the admin and polling paths. -/

theorem loadOrdersNotifs_type (prev : List String) (data : List Order)
    (n : NotificationRecord) (hn : n ∈ loadOrdersNotifs prev data) :
    n.type = NotificationType.new_order := by
  rw [loadOrdersNotifs] at hn
  split at hn
  · cases hn
  · obtain ⟨o, _, rfl⟩ := List.mem_map.mp hn
    rfl

theorem fetchOrdersNotifs_type (loading : Bool) (prev : List String) (data : List Order)
    (n : NotificationRecord) (hn : n ∈ fetchOrdersNotifs loading prev data) :
    n.type = NotificationType.new_order := by
  rw [fetchOrdersNotifs] at hn
  split at hn
  · cases hn
  · obtain ⟨o, _, rfl⟩ := List.mem_map.mp hn
    rfl

theorem countNotifsOfType_append (a b : List NotificationRecord) (t : NotificationType) :
    countNotifsOfType (a ++ b) t = countNotifsOfType a t + countNotifsOfType b t := by
  simp [countNotifsOfType, List.countP_append]

theorem countNotifsOfType_loadOrdersNotifs (prev : List String) (data : List Order)
    (t : NotificationType) (ht : t ≠ NotificationType.new_order) :
    countNotifsOfType (loadOrdersNotifs prev data) t = 0 := by
  rw [countNotifsOfType]
  refine List.countP_eq_zero.mpr fun n hn hbeq => ?_
  have h1 := loadOrdersNotifs_type prev data n hn
  have h2 : n.type = t := eq_of_beq hbeq
  exact ht (by rw [← h2, h1])

theorem countNotifsOfType_fetchOrdersNotifs (loading : Bool) (prev : List String)
    (data : List Order) (t : NotificationType) (ht : t ≠ NotificationType.new_order) :
    countNotifsOfType (fetchOrdersNotifs loading prev data) t = 0 := by
  rw [countNotifsOfType]
  refine List.countP_eq_zero.mpr fun n hn hbeq => ?_
  have h1 := fetchOrdersNotifs_type loading prev data n hn
  have h2 : n.type = t := eq_of_beq hbeq
  exact ht (by rw [← h2, h1])

theorem countNotifsOfType_loadOrdersStepOk (s : LoadState) (data : List Order)
    (t : NotificationType) (ht : t ≠ NotificationType.new_order) :
    countNotifsOfType (loadOrdersStepOk s data).notifications t
      = countNotifsOfType s.notifications t := by
  simp [loadOrdersStepOk, countNotifsOfType_append,
    countNotifsOfType_loadOrdersNotifs _ _ _ ht]

theorem countNotifsOfType_fetchOrdersStep (s : FetchState) (fetch : Option (List Order))
    (t : NotificationType) (ht : t ≠ NotificationType.new_order) :
    countNotifsOfType (fetchOrdersStep s fetch).notifications t
      = countNotifsOfType s.notifications t := by
  cases fetch with
  | none => rfl
  | some data =>
      simp [fetchOrdersStep, countNotifsOfType_append,
        countNotifsOfType_fetchOrdersNotifs _ _ _ _ ht]

/-- C6 (counterexample): the claim asserts each successful admin-initiated
status (resp. payment) transition emits exactly one `status_update` (resp.
`payment_update`) notification.  The `updateDeliveryStatus` and
`updatePaymentStatus` handlers of the `fetchOrders` variant perform the
write - the transition succeeds, as the updated order store shows - but
contain no `saveNotification` call, so zero notifications are emitted. -/
theorem c6_no_status_notification_counterexample :
    countNotifsOfType ((updateDeliveryStatus [oA] [] "A" "confirmed").2)
        NotificationType.status_update = 0 ∧
      countNotifsOfType ((updatePaymentStatus [oA] [] "A" "paid").2)
        NotificationType.payment_update = 0 ∧
      (updateDeliveryStatus [oA] [] "A" "confirmed").1
        = [{ oA with status := "confirmed" }] ∧
      (updatePaymentStatus [oA] [] "A" "paid").1
        = [{ oA with paymentStatus := "paid" }] :=
  ⟨by decide, by decide, by decide, by decide⟩

/-- C6 (amended): in the `loadOrders` variant each admin-initiated transition
on an order present in local state appends exactly one notification - of type
`status_update` (resp. `payment_update`), referencing the transitioned order
identifier, raising that type's count by exactly one; in the `fetchOrders`
variant `updateDeliveryStatus` / `updatePaymentStatus` append none; and the
polling paths of both variants only ever persist `new_order` records and
leave the `status_update` / `payment_update` counts of the store unchanged,
so no poll-driven duplicate is produced even when the next cycle observes the
changed value. -/
theorem c6_admin_transition_notifications :
    (∀ (db localOrders : List Order) (notifs : List NotificationRecord)
        (orderId newStatus : String) (o : Order),
        localOrders.find? (fun x => x.id == orderId) = some o →
        (handleStatusUpdate db localOrders notifs orderId newStatus).2
            = notifs ++ [statusUpdateNotif o newStatus] ∧
          (statusUpdateNotif o newStatus).orderId = orderId ∧
          countNotifsOfType (handleStatusUpdate db localOrders notifs orderId newStatus).2
              NotificationType.status_update
            = countNotifsOfType notifs NotificationType.status_update + 1) ∧
      (∀ (db localOrders : List Order) (notifs : List NotificationRecord)
        (orderId newPayment : String) (o : Order),
        localOrders.find? (fun x => x.id == orderId) = some o →
        (handlePaymentStatusUpdate db localOrders notifs orderId newPayment).2
            = notifs ++ [paymentUpdateNotif o newPayment] ∧
          (paymentUpdateNotif o newPayment).orderId = orderId ∧
          countNotifsOfType
              (handlePaymentStatusUpdate db localOrders notifs orderId newPayment).2
              NotificationType.payment_update
            = countNotifsOfType notifs NotificationType.payment_update + 1) ∧
      (∀ (db : List Order) (notifs : List NotificationRecord) (orderId newStatus : String),
        (updateDeliveryStatus db notifs orderId newStatus).2 = notifs) ∧
      (∀ (db : List Order) (notifs : List NotificationRecord) (orderId newPayment : String),
        (updatePaymentStatus db notifs orderId newPayment).2 = notifs) ∧
      (∀ (prev : List String) (data : List Order) (n : NotificationRecord),
        n ∈ loadOrdersNotifs prev data → n.type = NotificationType.new_order) ∧
      (∀ (loading : Bool) (prev : List String) (data : List Order) (n : NotificationRecord),
        n ∈ fetchOrdersNotifs loading prev data → n.type = NotificationType.new_order) ∧
      (∀ (s : LoadState) (data : List Order),
        countNotifsOfType (loadOrdersStepOk s data).notifications
            NotificationType.status_update
          = countNotifsOfType s.notifications NotificationType.status_update ∧
        countNotifsOfType (loadOrdersStepOk s data).notifications
            NotificationType.payment_update
          = countNotifsOfType s.notifications NotificationType.payment_update) ∧
      (∀ (s : FetchState) (fetch : Option (List Order)),
        countNotifsOfType (fetchOrdersStep s fetch).notifications
            NotificationType.status_update
          = countNotifsOfType s.notifications NotificationType.status_update ∧
        countNotifsOfType (fetchOrdersStep s fetch).notifications
            NotificationType.payment_update
          = countNotifsOfType s.notifications NotificationType.payment_update) := by
  refine ⟨?_, ?_, fun _ _ _ _ => rfl, fun _ _ _ _ => rfl,
    loadOrdersNotifs_type, fetchOrdersNotifs_type,
    fun s data => ⟨countNotifsOfType_loadOrdersStepOk s data _ (by decide),
      countNotifsOfType_loadOrdersStepOk s data _ (by decide)⟩,
    fun s fetch => ⟨countNotifsOfType_fetchOrdersStep s fetch _ (by decide),
      countNotifsOfType_fetchOrdersStep s fetch _ (by decide)⟩⟩
  · intro db localOrders notifs orderId newStatus o h
    have heq : (handleStatusUpdate db localOrders notifs orderId newStatus).2
        = notifs ++ [statusUpdateNotif o newStatus] := by
      simp [handleStatusUpdate, h]
    have hbeq : (o.id == orderId) = true := by
      have := List.find?_some h
      simpa using this
    refine ⟨heq, eq_of_beq hbeq, ?_⟩
    rw [heq, countNotifsOfType_append]
    simp [countNotifsOfType, statusUpdateNotif]
  · intro db localOrders notifs orderId newPayment o h
    have heq : (handlePaymentStatusUpdate db localOrders notifs orderId newPayment).2
        = notifs ++ [paymentUpdateNotif o newPayment] := by
      simp [handlePaymentStatusUpdate, h]
    have hbeq : (o.id == orderId) = true := by
      have := List.find?_some h
      simpa using this
    refine ⟨heq, eq_of_beq hbeq, ?_⟩
    rw [heq, countNotifsOfType_append]
    simp [countNotifsOfType, paymentUpdateNotif]

/-- C6 (witness): transitioning `oA` to `confirmed` through
`handleStatusUpdate` appends exactly the one `status_update` record
referencing `"A"` and raises the `status_update` count from 0 to 1. -/
theorem c6_admin_transition_notifications_witness :
    ([oA].find? (fun x => x.id == "A") = some oA) ∧
      ((handleStatusUpdate [oA] [oA] [] "A" "confirmed").2
          = [] ++ [statusUpdateNotif oA "confirmed"] ∧
        (statusUpdateNotif oA "confirmed").orderId = "A" ∧
        countNotifsOfType (handleStatusUpdate [oA] [oA] [] "A" "confirmed").2
            NotificationType.status_update
          = countNotifsOfType [] NotificationType.status_update + 1) :=
  ⟨by decide,
    c6_admin_transition_notifications.1 [oA] [oA] [] "A" "confirmed" oA (by decide)⟩

/-- C8 (confirmed): on a cache miss a successful lookup performs exactly one
external lookup and stores the name before returning it; a failed lookup
performs the one lookup, returns the `null` sentinel and leaves the cache
untouched, so a later resolution for the same identifier performs the lookup
again (and succeeds if the collaborator now answers); a hit performs no
lookup. -/
theorem c8_store_name_cache (cache : List (String × String)) (storeId name : String)
    (hmiss : storeNamesHit cache storeId = false) :
    resolveStoreName cache storeId (some name)
        = ⟨(storeId, name) :: cache, some name, 1⟩ ∧
      storeNamesGet ((storeId, name) :: cache) storeId = some name ∧
      resolveStoreName cache storeId none = ⟨cache, none, 1⟩ ∧
      resolveStoreName (resolveStoreName cache storeId none).cache storeId (some name)
        = ⟨(storeId, name) :: cache, some name, 1⟩ ∧
      (∀ lookup : Option String, storeNamesHit cache storeId = true →
        (resolveStoreName cache storeId lookup).cache = cache ∧
          (resolveStoreName cache storeId lookup).lookups = 0) := by
  refine ⟨?_, ?_, ?_, ?_, ?_⟩
  · simp [resolveStoreName, hmiss, fetchStoreName]
  · simp [storeNamesGet]
  · simp [resolveStoreName, hmiss, fetchStoreName]
  · simp [resolveStoreName, hmiss, fetchStoreName]
  · intro lookup hhit
    simp [resolveStoreName, hhit]

/-- C8 (witness): starting from an empty cache, a failed lookup for `"s1"`
is not cached and the retry with a live collaborator resolves and caches
`"Fresh Mart"`. -/
theorem c8_store_name_cache_witness :
    (storeNamesHit [] "s1" = false) ∧
      resolveStoreName [] "s1" (some "Fresh Mart")
        = ⟨[("s1", "Fresh Mart")], some "Fresh Mart", 1⟩ ∧
      resolveStoreName [] "s1" none = ⟨[], none, 1⟩ :=
  ⟨by decide, (c8_store_name_cache [] "s1" "Fresh Mart" (by decide)).1,
    (c8_store_name_cache [] "s1" "Fresh Mart" (by decide)).2.2.1⟩

/-- `unreadCount` as a `countP`. -/
theorem unreadCount_eq_countP (l : List InboxNotification) :
    unreadCount l = l.countP (fun n => !n.read) := by
  simp [unreadCount, List.countP_eq_length_filter]

/-- Exact accounting of `markAsRead`: the unread count drops by exactly the
number of unread records carrying the marked id. -/
theorem unreadCount_markAsRead (db : List InboxNotification) (id : String) :
    unreadCount (markAsRead db id) + db.countP (fun m => m.id == id && !m.read)
      = unreadCount db := by
  induction db with
  | nil => rfl
  | cons n ns ih =>
    simp only [unreadCount_eq_countP, markAsRead, List.map_cons, List.countP_cons,
      List.countP_map] at ih ⊢
    by_cases h : n.id == id
    · by_cases hr : n.read <;> simp [h, hr, Function.comp] at ih ⊢ <;> omega
    · simp [h, Function.comp] at ih ⊢
      omega

/-- C9 (confirmed): `markAsRead` flips exactly the addressed record's flag
(other records are untouched, the addressed one keeps its other fields), is
idempotent, is a no-op rather than an error when the record is already read,
never moves any record out of the read state (the unread count never grows,
and it drops by exactly the number of unread records carrying the id), and a
second `handleNotificationClick` on the now-read record changes nothing. -/
theorem c9_mark_read_idempotent :
    (∀ (db : List InboxNotification) (id : String) (n : InboxNotification),
        n ∈ db → n.id ≠ id → n ∈ markAsRead db id) ∧
      (∀ (db : List InboxNotification) (id : String) (n : InboxNotification),
        n ∈ db → n.id = id → { n with read := true } ∈ markAsRead db id) ∧
      (∀ (db : List InboxNotification) (id : String),
        markAsRead (markAsRead db id) id = markAsRead db id) ∧
      (∀ (db : List InboxNotification) (id : String),
        (∀ n ∈ db, n.id = id → n.read = true) → markAsRead db id = db) ∧
      (∀ (db : List InboxNotification) (id : String),
        unreadCount (markAsRead db id) + db.countP (fun m => m.id == id && !m.read)
          = unreadCount db) ∧
      (∀ (db : List InboxNotification) (id : String),
        unreadCount (markAsRead db id) ≤ unreadCount db) ∧
      (∀ (db : List InboxNotification) (n : InboxNotification),
        handleNotificationClick (handleNotificationClick db n) { n with read := true }
          = handleNotificationClick db n) := by
  refine ⟨?_, ?_, ?_, ?_, unreadCount_markAsRead, ?_, ?_⟩
  · intro db id n hn hne
    have : (fun m : InboxNotification =>
        if m.id == id then { m with read := true } else m) n = n := by
      simp [hne]
    exact this ▸ List.mem_map_of_mem _ hn
  · intro db id n hn hid
    have : (fun m : InboxNotification =>
        if m.id == id then { m with read := true } else m) n = { n with read := true } := by
      simp [hid]
    exact this ▸ List.mem_map_of_mem _ hn
  · intro db id
    simp only [markAsRead, List.map_map]
    apply List.map_congr_left
    intro n _
    by_cases h : n.id == id <;> simp [Function.comp, h]
  · intro db id h
    rw [markAsRead]
    conv_rhs => rw [← List.map_id db]
    apply List.map_congr_left
    intro n hn
    by_cases hid : n.id == id
    · have hr : n.read = true := h n hn (by simpa using hid)
      simp [hid]
      cases n
      simp_all
    · simp [hid]
  · intro db id
    have := unreadCount_markAsRead db id
    omega
  · intro db n
    rw [handleNotificationClick]
    simp

/-- C9 (witness): marking the single unread record `"n1"` puts its read copy
into the collection and drops the unread count from 1 to 0. -/
theorem c9_mark_read_idempotent_witness :
    ((⟨"n1", "o", NotificationType.new_order, false, 0⟩ : InboxNotification)
        ∈ [(⟨"n1", "o", NotificationType.new_order, false, 0⟩ : InboxNotification)]) ∧
      ({ (⟨"n1", "o", NotificationType.new_order, false, 0⟩ : InboxNotification) with
            read := true }
          ∈ markAsRead [⟨"n1", "o", NotificationType.new_order, false, 0⟩] "n1") ∧
      unreadCount (markAsRead [(⟨"n1", "o", NotificationType.new_order, false, 0⟩ :
            InboxNotification)] "n1")
          + [(⟨"n1", "o", NotificationType.new_order, false, 0⟩ :
              InboxNotification)].countP (fun m => m.id == "n1" && !m.read)
        = unreadCount [(⟨"n1", "o", NotificationType.new_order, false, 0⟩ :
            InboxNotification)] :=
  ⟨by decide,
    c9_mark_read_idempotent.2.1 [⟨"n1", "o", NotificationType.new_order, false, 0⟩] "n1"
      ⟨"n1", "o", NotificationType.new_order, false, 0⟩ (by decide) (by decide),
    c9_mark_read_idempotent.2.2.2.2.1 [⟨"n1", "o", NotificationType.new_order, false, 0⟩]
      "n1"⟩

/-- A persisted collection of 51 records in which only the oldest
(`createdAt = 0`) is unread. -/
def oldUnreadStore : List InboxNotification :=
  (List.range 51).map (fun i =>
    { id := toString i, orderId := "o", type := NotificationType.new_order
      read := !(i == 0), createdAt := i })

/-- C10 (confirmed): the displayed unread count is computed over the bounded
feed only - the feed never exceeds the 50 most recent records, and in a
collection of 51 records whose only unread member is the oldest, the inbox
displays 0 unread even though the collection holds 1. -/
theorem c10_unread_count_bounded_feed :
    (∀ db : List InboxNotification, (notificationFeed db).length ≤ 50) ∧
      displayedUnreadCount oldUnreadStore = 0 ∧
      unreadCount oldUnreadStore = 1 := by
  refine ⟨?_, by decide, by decide⟩
  intro db
  simp [notificationFeed]
